import Mathlib

/-!
Verification of the `inth-oauth2-azure` provider crate (src/lib.rs).

The crate defines four provider configurations for Azure Active Directory:
three fieldless structs (`AzureCommon`, `AzureOrganization`, `AzureConsumer`)
whose endpoints are `lazy_static` constants parsed once from literal strings,
and `AzureTenant` whose constructor `new(id)` substitutes a tenant identifier
into two URL templates and parses them with `Url::parse(..).unwrap()`.

The URL type and its parser come from the external `url` crate, which
implements the WHATWG URL Standard.  We embed the part of that algorithm that
the inputs of this crate can reach: `https` scheme, a host section with no
userinfo and no port (every input string here is
`https://login.microsoftonline.com/<path>` and the host section can never
contain `@` or `:`), path/query/fragment splitting, dot-segment removal and
path percent-encoding.  Parsing failure (`None`) models the `unwrap` panic.
-/

namespace AzureOAuth2

/-- Is the character an ASCII tab, line feed or carriage return?  The WHATWG
parser removes these from anywhere in the input. -/
def isTabNl (c : Char) : Bool :=
  c.toNat == 9 || c.toNat == 10 || c.toNat == 13

/-- Is the character a C0 control or space?  The WHATWG parser trims these
from both ends of the input. -/
def isC0Space (c : Char) : Bool :=
  decide (c.toNat ≤ 32)

/-- Trim leading and trailing C0 controls and spaces. -/
def trimEnds (l : List Char) : List Char :=
  ((l.dropWhile isC0Space).reverse.dropWhile isC0Space).reverse

/-- WHATWG input preprocessing: trim C0/space at both ends, then remove every
ASCII tab and newline. -/
def preprocess (l : List Char) : List Char :=
  (trimEnds l).filter (fun c => !isTabNl c)

/-- Strip an expected leading character sequence, returning the remainder. -/
def stripPre : List Char → List Char → Option (List Char)
  | [], l => some l
  | _ :: _, [] => none
  | a :: as, b :: bs => if a == b then stripPre as bs else none

/-- Characters that terminate the host section of a special URL:
slash, backslash, question mark, number sign. -/
def hostEndChar (c : Char) : Bool :=
  c.toNat == 47 || c.toNat == 92 || c.toNat == 63 || c.toNat == 35

/-- Forbidden host code points (the WHATWG forbidden domain code points that
can still occur after tab/newline removal), including `:` and `@` since the
inputs of this crate never carry a port or userinfo. -/
def forbiddenHostChar (c : Char) : Bool :=
  c.toNat == 0 || c.toNat == 32 || c.toNat == 35 || c.toNat == 37 ||
  c.toNat == 47 || c.toNat == 58 || c.toNat == 60 || c.toNat == 62 ||
  c.toNat == 63 || c.toNat == 64 || c.toNat == 91 || c.toNat == 92 ||
  c.toNat == 93 || c.toNat == 94 || c.toNat == 124

/-- ASCII lower-casing, applied to the host. -/
def asciiLower (c : Char) : Char :=
  if 65 ≤ c.toNat ∧ c.toNat ≤ 90 then Char.ofNat (c.toNat + 32) else c

/-- Path-segment separator of a special URL: slash or backslash. -/
def isSepChar (c : Char) : Bool :=
  c.toNat == 47 || c.toNat == 92

/-- Split a character list at the first occurrence of `ch`; the second
component is `none` when `ch` does not occur. -/
def splitAtChar (ch : Char) : List Char → List Char × Option (List Char)
  | [] => ([], none)
  | c :: cs =>
    if c == ch then ([], some cs)
    else
      let r := splitAtChar ch cs
      (c :: r.1, r.2)

/-- Split into path segments at slashes and backslashes. -/
def splitSegs : List Char → List (List Char)
  | [] => [[]]
  | c :: cs =>
    if isSepChar c then [] :: splitSegs cs
    else
      match splitSegs cs with
      | [] => [[c]]
      | s :: ss => (c :: s) :: ss

/-- A single-dot path segment (`.` or a percent-encoded variant). -/
def singleDotSeg (s : List Char) : Bool :=
  s == ['.'] || s == ['%', '2', 'e'] || s == ['%', '2', 'E']

/-- A double-dot path segment (`..` or a percent-encoded variant). -/
def doubleDotSeg (s : List Char) : Bool :=
  s == ['.', '.'] ||
  s == ['.', '%', '2', 'e'] || s == ['.', '%', '2', 'E'] ||
  s == ['%', '2', 'e', '.'] || s == ['%', '2', 'E', '.'] ||
  s == ['%', '2', 'e', '%', '2', 'e'] || s == ['%', '2', 'e', '%', '2', 'E'] ||
  s == ['%', '2', 'E', '%', '2', 'e'] || s == ['%', '2', 'E', '%', '2', 'E']

/-- WHATWG dot-segment removal over the split segments.  A double dot pops
the last accumulated segment; a single dot is dropped; either one in final
position additionally appends an empty segment (the trailing slash). -/
def processSegs : List (List Char) → List (List Char) → List (List Char)
  | acc, [] => acc
  | acc, s :: rest =>
    if doubleDotSeg s then
      match rest with
      | [] => acc.dropLast ++ [[]]
      | _ :: _ => processSegs acc.dropLast rest
    else if singleDotSeg s then
      match rest with
      | [] => acc ++ [[]]
      | _ :: _ => processSegs acc rest
    else processSegs (acc ++ [s]) rest

/-- Upper-case hexadecimal digit for a value below 16. -/
def hexDig (n : Nat) : Char :=
  if n < 10 then Char.ofNat (48 + n) else Char.ofNat (55 + n)

/-- Percent-encode one byte value. -/
def pctByte (n : Nat) : List Char :=
  ['%', hexDig (n / 16), hexDig (n % 16)]

/-- UTF-8 byte values of a character. -/
def utf8Bytes (c : Char) : List Nat :=
  let n := c.toNat
  if n < 128 then [n]
  else if n < 2048 then [192 + n / 64, 128 + n % 64]
  else if n < 65536 then [224 + n / 4096, 128 + (n / 64) % 64, 128 + n % 64]
  else [240 + n / 262144, 128 + (n / 4096) % 64, 128 + (n / 64) % 64,
        128 + n % 64]

/-- The WHATWG path percent-encode set: C0 controls, space, `"`, `#`, `<`,
`>`, `?`, backtick, both curly brackets, DEL and all non-ASCII. -/
def inPathEncSet (c : Char) : Bool :=
  decide (c.toNat ≤ 32) || c.toNat == 34 || c.toNat == 35 || c.toNat == 60 ||
  c.toNat == 62 || c.toNat == 63 || c.toNat == 96 || c.toNat == 123 ||
  c.toNat == 125 || decide (127 ≤ c.toNat)

/-- Percent-encode a path character (UTF-8 encode, then escape each byte)
when it lies in the path percent-encode set; otherwise keep it. -/
def pathEncodeChar (c : Char) : List Char :=
  if inPathEncSet c then ((utf8Bytes c).map pctByte).flatten else [c]

/-- Percent-encode a whole path segment. -/
def encodeSeg (s : List Char) : List Char :=
  (s.map pathEncodeChar).flatten

/-- Parse the part after the host into path segments: drop the leading
separator, split, remove dot segments, percent-encode.  An absent path
serializes as a single slash for a special URL. -/
def pathOf (l : List Char) : List (List Char) :=
  match l with
  | [] => [[]]
  | _ :: cs => (processSegs [] (splitSegs cs)).map encodeSeg

/-- A parsed URL: the fields the `url` crate exposes that this crate's
values can populate. -/
structure Url where
  scheme : List Char
  host : List Char
  path : List (List Char)
  query : Option (List Char)
  fragment : Option (List Char)
deriving DecidableEq

/-- The WHATWG parse of an `https` URL string, as performed by
`url::Url::parse` on the strings this crate builds. -/
def parseChars (l : List Char) : Option Url :=
  match stripPre "https://".data (preprocess l) with
  | none => none
  | some rest =>
    let host := rest.takeWhile (fun c => !hostEndChar c)
    let afterHost := rest.dropWhile (fun c => !hostEndChar c)
    if host.isEmpty then none
    else if host.any forbiddenHostChar then none
    else
      let pf := splitAtChar '#' afterHost
      let pq := splitAtChar '?' pf.1
      some { scheme := "https".data, host := host.map asciiLower,
             path := pathOf pq.1, query := pq.2, fragment := pf.2 }

/-- `Url::parse`: `none` models the `Err` that the crate `unwrap`s. -/
def Url.parse (s : String) : Option Url :=
  parseChars s.data

/-- `Url::as_str`: the serialized URL. -/
def Url.as_str (u : Url) : String :=
  String.mk (u.scheme ++ "://".data ++ u.host ++
    (u.path.map (fun s => '/' :: s)).flatten ++
    (match u.query with | none => [] | some q => '?' :: q) ++
    (match u.fragment with | none => [] | some f => '#' :: f))

/-- `Url::path`: the serialized path component. -/
def Url.path_str (u : Url) : String :=
  String.mk ((u.path.map (fun s => '/' :: s)).flatten)

/-! ## The provider registry (src/lib.rs) -/

/-- `COMMON_AUTH_URL`: lazy static parsed from its literal. -/
def COMMON_AUTH_URL : Option Url :=
  Url.parse "https://login.microsoftonline.com/common/oauth2/v2.0/authorize"

/-- `COMMON_TOKEN_URL`: lazy static parsed from its literal. -/
def COMMON_TOKEN_URL : Option Url :=
  Url.parse "https://login.microsoftonline.com/common/oauth2/v2.0/token"

/-- `ORGANIZATIONS_AUTH_URL`: lazy static parsed from its literal. -/
def ORGANIZATIONS_AUTH_URL : Option Url :=
  Url.parse "https://login.microsoftonline.com/organizations/oauth2/v2.0/authorize"

/-- `ORGANIZATIONS_TOKEN_URL`: lazy static parsed from its literal. -/
def ORGANIZATIONS_TOKEN_URL : Option Url :=
  Url.parse "https://login.microsoftonline.com/organizations/oauth2/v2.0/token"

/-- `CONSUMERS_AUTH_URL`: lazy static parsed from its literal. -/
def CONSUMERS_AUTH_URL : Option Url :=
  Url.parse "https://login.microsoftonline.com/consumers/oauth2/v2.0/authorize"

/-- `CONSUMERS_TOKEN_URL`: lazy static parsed from its literal. -/
def CONSUMERS_TOKEN_URL : Option Url :=
  Url.parse "https://login.microsoftonline.com/consumers/oauth2/v2.0/token"

/-- `pub struct AzureCommon;` -/
structure AzureCommon : Type
deriving DecidableEq

/-- `pub struct AzureOrganization;` -/
structure AzureOrganization : Type
deriving DecidableEq

/-- `pub struct AzureConsumer;` -/
structure AzureConsumer : Type
deriving DecidableEq

/-- `AzureCommon::auth_uri` returns the lazy static (whose first
initialization may panic, hence `Option`). -/
def AzureCommon.auth_uri (_ : AzureCommon) : Option Url := COMMON_AUTH_URL

/-- `AzureCommon::token_uri`. -/
def AzureCommon.token_uri (_ : AzureCommon) : Option Url := COMMON_TOKEN_URL

/-- `AzureOrganization::auth_uri`. -/
def AzureOrganization.auth_uri (_ : AzureOrganization) : Option Url :=
  ORGANIZATIONS_AUTH_URL

/-- `AzureOrganization::token_uri`. -/
def AzureOrganization.token_uri (_ : AzureOrganization) : Option Url :=
  ORGANIZATIONS_TOKEN_URL

/-- `AzureConsumer::auth_uri`. -/
def AzureConsumer.auth_uri (_ : AzureConsumer) : Option Url :=
  CONSUMERS_AUTH_URL

/-- `AzureConsumer::token_uri`. -/
def AzureConsumer.token_uri (_ : AzureConsumer) : Option Url :=
  CONSUMERS_TOKEN_URL

/-- `pub struct AzureTenant` with its two URL fields. -/
structure AzureTenant where
  auth_uri : Url
  token_uri : Url
deriving DecidableEq

/-- `AzureTenant::new(id)`: substitute `id` into the two templates and parse;
`none` models the panic of either `unwrap`. -/
def AzureTenant.new (id : String) : Option AzureTenant :=
  match Url.parse ("https://login.microsoftonline.com/" ++ id ++
                   "/oauth2/v2.0/authorize"),
        Url.parse ("https://login.microsoftonline.com/" ++ id ++
                   "/oauth2/v2.0/token") with
  | some a, some t => some { auth_uri := a, token_uri := t }
  | _, _ => none

/-- The derived `PartialEq` of `AzureTenant`: field-wise equality. -/
def AzureTenant.beq (a b : AzureTenant) : Bool :=
  decide (a.auth_uri = b.auth_uri) && decide (a.token_uri = b.token_uri)

/-- `fn auth_uri(&self) -> &Url` on `AzureTenant`, as an explicit call on the
receiver state: it returns the stored field and the unchanged receiver. -/
def AzureTenant.auth_uriCall (t : AzureTenant) : Url × AzureTenant :=
  (t.auth_uri, t)

/-- `fn token_uri(&self) -> &Url` on `AzureTenant`, as an explicit call. -/
def AzureTenant.token_uriCall (t : AzureTenant) : Url × AzureTenant :=
  (t.token_uri, t)

/-- `fn auth_uri(&self) -> &Url` on `AzureCommon`, as an explicit call on the
receiver state. -/
def AzureCommon.auth_uriCall (a : AzureCommon) : Option Url × AzureCommon :=
  (AzureCommon.auth_uri a, a)

/-- `fn token_uri(&self) -> &Url` on `AzureCommon`, as an explicit call. -/
def AzureCommon.token_uriCall (a : AzureCommon) : Option Url × AzureCommon :=
  (AzureCommon.token_uri a, a)

/-- `fn auth_uri(&self) -> &Url` on `AzureOrganization`, as an explicit
call. -/
def AzureOrganization.auth_uriCall (a : AzureOrganization) :
    Option Url × AzureOrganization :=
  (AzureOrganization.auth_uri a, a)

/-- `fn token_uri(&self) -> &Url` on `AzureOrganization`, as an explicit
call. -/
def AzureOrganization.token_uriCall (a : AzureOrganization) :
    Option Url × AzureOrganization :=
  (AzureOrganization.token_uri a, a)

/-- `fn auth_uri(&self) -> &Url` on `AzureConsumer`, as an explicit call. -/
def AzureConsumer.auth_uriCall (a : AzureConsumer) :
    Option Url × AzureConsumer :=
  (AzureConsumer.auth_uri a, a)

/-- `fn token_uri(&self) -> &Url` on `AzureConsumer`, as an explicit call. -/
def AzureConsumer.token_uriCall (a : AzureConsumer) :
    Option Url × AzureConsumer :=
  (AzureConsumer.token_uri a, a)

/-! ## The lazy_static initialize-once cell -/

/-- A `lazy_static` cell: uninitialized, or holding the parse result
computed at first dereference. -/
structure LazyUrl where
  cached : Option (Option Url)
deriving DecidableEq

/-- The cell before any access. -/
def LazyUrl.fresh : LazyUrl := ⟨none⟩

/-- Dereference the cell for the static parsed from `s`: the first access
parses and caches, later accesses return the cache unchanged. -/
def forceLazy (s : String) (l : LazyUrl) : Option Url × LazyUrl :=
  match l.cached with
  | some v => (v, l)
  | none => (Url.parse s, ⟨some (Url.parse s)⟩)

/-- The values returned by `n` successive dereferences of the cell. -/
def accessList (s : String) : Nat → LazyUrl → List (Option Url)
  | 0, _ => []
  | n + 1, st =>
    let r := forceLazy s st
    r.1 :: accessList s n r.2

/-- The cell state after `n` successive dereferences. -/
def accessState (s : String) : Nat → LazyUrl → LazyUrl
  | 0, st => st
  | n + 1, st => accessState s n (forceLazy s st).2

/-! ## Character classes used to state the spec's quantified properties -/

/-- RFC 3986 reserved characters (gen-delims and sub-delims). -/
def reservedChar (c : Char) : Bool :=
  c.toNat == 58 || c.toNat == 47 || c.toNat == 63 || c.toNat == 35 ||
  c.toNat == 91 || c.toNat == 93 || c.toNat == 64 || c.toNat == 33 ||
  c.toNat == 36 || c.toNat == 38 || c.toNat == 39 || c.toNat == 40 ||
  c.toNat == 41 || c.toNat == 42 || c.toNat == 43 || c.toNat == 44 ||
  c.toNat == 59 || c.toNat == 61

/-- Characters a path segment carries through parsing unchanged: ASCII
alphanumerics and `-`, `.`, `_`, `~` (the RFC 3986 unreserved set). -/
def pathSafeChar (c : Char) : Bool :=
  (decide (48 ≤ c.toNat) && decide (c.toNat ≤ 57)) ||
  (decide (65 ≤ c.toNat) && decide (c.toNat ≤ 90)) ||
  (decide (97 ≤ c.toNat) && decide (c.toNat ≤ 122)) ||
  c.toNat == 45 || c.toNat == 46 || c.toNat == 95 || c.toNat == 126

/-- Is `sub` a leading subsequence of `l`? -/
def listHasPre : List Char → List Char → Bool
  | [], _ => true
  | _ :: _, [] => false
  | a :: as, b :: bs => a == b && listHasPre as bs

/-- Does `sub` occur contiguously anywhere inside `l`? -/
def listHasSub (sub : List Char) : List Char → Bool
  | [] => sub.isEmpty
  | c :: cs => listHasPre sub (c :: cs) || listHasSub sub cs

/-- Does the string `s` contain `sub` as a contiguous substring? -/
def strContains (s sub : String) : Bool :=
  listHasSub sub.data s.data

/-- Does the string `s` end with `suf`? -/
def strEndsWith (s suf : String) : Bool :=
  listHasPre suf.data.reverse s.data.reverse

/-! ## Helper lemmas about path-safe characters -/

/-- The code-point ranges behind `pathSafeChar`. -/
theorem pathSafe_toNat (c : Char) (h : pathSafeChar c = true) :
    (48 ≤ c.toNat ∧ c.toNat ≤ 57) ∨ (65 ≤ c.toNat ∧ c.toNat ≤ 90) ∨
    (97 ≤ c.toNat ∧ c.toNat ≤ 122) ∨ c.toNat = 45 ∨ c.toNat = 46 ∨
    c.toNat = 95 ∨ c.toNat = 126 := by
  simpa [pathSafeChar, or_assoc] using h

/-- A path-safe character is not a tab or newline. -/
theorem pathSafe_not_tabNl (c : Char) (h : pathSafeChar c = true) :
    isTabNl c = false := by
  have := pathSafe_toNat c h
  simp only [isTabNl, Bool.or_eq_false_iff, beq_eq_false_iff_ne, ne_eq]
  omega

/-- A path-safe character is not a C0 control or space. -/
theorem pathSafe_not_c0Space (c : Char) (h : pathSafeChar c = true) :
    isC0Space c = false := by
  have := pathSafe_toNat c h
  simp only [isC0Space, decide_eq_false_iff_not, not_le]
  omega

/-- A path-safe character is not a path separator. -/
theorem pathSafe_not_sep (c : Char) (h : pathSafeChar c = true) :
    isSepChar c = false := by
  have := pathSafe_toNat c h
  simp only [isSepChar, Bool.or_eq_false_iff, beq_eq_false_iff_ne, ne_eq]
  omega

/-- A path-safe character is outside the path percent-encode set. -/
theorem pathSafe_not_enc (c : Char) (h : pathSafeChar c = true) :
    inPathEncSet c = false := by
  have := pathSafe_toNat c h
  simp only [inPathEncSet, Bool.or_eq_false_iff, beq_eq_false_iff_ne, ne_eq,
    decide_eq_false_iff_not, not_le]
  omega

/-- A path-safe character is not the number sign. -/
theorem pathSafe_ne_hash (c : Char) (h : pathSafeChar c = true) :
    (c == '#') = false := by
  rw [beq_eq_false_iff_ne]
  rintro rfl
  exact absurd h (by decide)

/-- A path-safe character is not the question mark. -/
theorem pathSafe_ne_quest (c : Char) (h : pathSafeChar c = true) :
    (c == '?') = false := by
  rw [beq_eq_false_iff_ne]
  rintro rfl
  exact absurd h (by decide)

/-- A path-safe character survives path percent-encoding unchanged. -/
theorem pathEncodeChar_safe (c : Char) (h : pathSafeChar c = true) :
    pathEncodeChar c = [c] := by
  simp [pathEncodeChar, pathSafe_not_enc c h]

/-- A segment of path-safe characters survives encoding unchanged. -/
theorem encodeSeg_safe : ∀ l : List Char,
    (∀ c ∈ l, pathSafeChar c = true) → encodeSeg l = l
  | [], _ => rfl
  | c :: cs, h => by
    have hc := h c (List.mem_cons_self c cs)
    have ih := encodeSeg_safe cs (fun x hx => h x (List.mem_cons_of_mem c hx))
    simp only [encodeSeg, List.map_cons, List.flatten_cons] at ih ⊢
    simp [pathEncodeChar_safe c hc, ih]

/-! ## Helper lemmas about the list primitives of the parser -/

/-- `takeWhile` over an append stops inside the first part when that part
contains a failing element. -/
theorem takeWhile_stop (p : Char → Bool) :
    ∀ l₁ l₂ : List Char, l₁.all p = false →
      (l₁ ++ l₂).takeWhile p = l₁.takeWhile p := by
  intro l₁
  induction l₁ with
  | nil => intro l₂ h; simp at h
  | cons a as ih =>
    intro l₂ h
    cases hpa : p a with
    | false => simp [List.takeWhile_cons, hpa]
    | true =>
      have has : as.all p = false := by simpa [List.all_cons, hpa] using h
      simp [List.takeWhile_cons, hpa, ih l₂ has]

/-- `dropWhile` over an append stops inside the first part when that part
contains a failing element. -/
theorem dropWhile_stop (p : Char → Bool) :
    ∀ l₁ l₂ : List Char, l₁.all p = false →
      (l₁ ++ l₂).dropWhile p = l₁.dropWhile p ++ l₂ := by
  intro l₁
  induction l₁ with
  | nil => intro l₂ h; simp at h
  | cons a as ih =>
    intro l₂ h
    cases hpa : p a with
    | false => simp [List.dropWhile_cons, hpa]
    | true =>
      have has : as.all p = false := by simpa [List.all_cons, hpa] using h
      simp [List.dropWhile_cons, hpa, ih l₂ has]

/-- `dropWhile` keeps a list whose elements all fail the predicate. -/
theorem dropWhile_all_false (p : Char → Bool) :
    ∀ l : List Char, (∀ c ∈ l, p c = false) → l.dropWhile p = l
  | [], _ => rfl
  | c :: cs, h => by
    simp [List.dropWhile_cons, h c (List.mem_cons_self c cs)]

/-- `filter` keeps a list whose elements all pass the predicate. -/
theorem filter_all_true (p : Char → Bool) :
    ∀ l : List Char, (∀ c ∈ l, p c = true) → l.filter p = l
  | [], _ => rfl
  | c :: cs, h => by
    simp only [List.filter_cons, h c (List.mem_cons_self c cs), if_true]
    rw [filter_all_true p cs (fun x hx => h x (List.mem_cons_of_mem c hx))]

/-- `preprocess` is the identity on input with no control characters. -/
theorem preprocess_clean (l : List Char)
    (h0 : ∀ c ∈ l, isC0Space c = false)
    (h1 : ∀ c ∈ l, isTabNl c = false) :
    preprocess l = l := by
  have ht : trimEnds l = l := by
    rw [trimEnds, dropWhile_all_false _ l h0, dropWhile_all_false _ l.reverse
      (fun c hc => h0 c (List.mem_reverse.mp hc)), List.reverse_reverse]
  rw [preprocess, ht]
  exact filter_all_true _ l (fun c hc => by simp [h1 c hc])

/-- Stripping a sequence from itself followed by anything leaves the rest. -/
theorem stripPre_append : ∀ a l : List Char, stripPre a (a ++ l) = some l
  | [], _ => rfl
  | x :: xs, l => by simp [stripPre, stripPre_append xs l]

/-- `splitAtChar` finds nothing in a list that avoids the character. -/
theorem splitAtChar_none (ch : Char) :
    ∀ l : List Char, (∀ c ∈ l, (c == ch) = false) →
      splitAtChar ch l = (l, none)
  | [], _ => rfl
  | c :: cs, h => by
    simp [splitAtChar, h c (List.mem_cons_self c cs),
      splitAtChar_none ch cs (fun x hx => h x (List.mem_cons_of_mem c hx))]

/-- Splitting a separator-free part followed by a separator yields that part
as the first segment. -/
theorem splitSegs_append_sep :
    ∀ (l₁ : List Char) (c : Char) (l₂ : List Char),
      (∀ x ∈ l₁, isSepChar x = false) → isSepChar c = true →
      splitSegs (l₁ ++ c :: l₂) = l₁ :: splitSegs l₂
  | [], c, l₂, _, hc => by simp [splitSegs, hc]
  | a :: as, c, l₂, h, hc => by
    have ha := h a (List.mem_cons_self a as)
    have ih := splitSegs_append_sep as c l₂
      (fun x hx => h x (List.mem_cons_of_mem a hx)) hc
    simp [splitSegs, ha, ih]

/-- Dot-segment removal is the identity on plain segments. -/
theorem processSegs_plain :
    ∀ (segs acc : List (List Char)),
      (∀ s ∈ segs, singleDotSeg s = false ∧ doubleDotSeg s = false) →
      processSegs acc segs = acc ++ segs
  | [], acc, _ => by simp [processSegs]
  | s :: rest, acc, h => by
    have hs := h s (List.mem_cons_self s rest)
    have ih := processSegs_plain rest (acc ++ [s])
      (fun x hx => h x (List.mem_cons_of_mem s hx))
    simp [processSegs, hs.1, hs.2, ih]

/-- A path-safe identifier other than `.` and `..` is not a dot segment. -/
theorem safe_not_dot (id : List Char)
    (hid : ∀ c ∈ id, pathSafeChar c = true)
    (h1 : id ≠ ['.']) (h2 : id ≠ ['.', '.']) :
    singleDotSeg id = false ∧ doubleDotSeg id = false := by
  constructor
  · simp only [singleDotSeg, Bool.or_eq_false_iff, beq_eq_false_iff_ne, ne_eq,
      and_assoc]
    refine ⟨h1, ?_, ?_⟩ <;>
      · rintro rfl
        exact absurd (hid '%' (by simp)) (by decide)
  · simp only [doubleDotSeg, Bool.or_eq_false_iff, beq_eq_false_iff_ne, ne_eq,
      and_assoc]
    refine ⟨h2, ?_, ?_, ?_, ?_, ?_, ?_, ?_, ?_⟩ <;>
      · rintro rfl
        exact absurd (hid '%' (by simp)) (by decide)

/-- Mapping a function that fixes every member is the identity. -/
theorem map_eq_self_of (f : List Char → List Char) :
    ∀ l : List (List Char), (∀ s ∈ l, f s = s) → l.map f = l
  | [], _ => rfl
  | s :: rest, h => by
    simp [h s (List.mem_cons_self s rest),
      map_eq_self_of f rest (fun x hx => h x (List.mem_cons_of_mem s hx))]

/-- Parsing `https://login.microsoftonline.com/<id>/<tail>` for a path-safe
identifier and a plain tail: the identifier becomes the first path segment,
verbatim. -/
theorem parse_template (id tail : List Char)
    (hid : ∀ c ∈ id, pathSafeChar c = true)
    (h1 : id ≠ ['.']) (h2 : id ≠ ['.', '.'])
    (htail : ∀ c ∈ tail, pathSafeChar c = true ∨ c = '/')
    (hsegs : ∀ s ∈ splitSegs tail,
      (∀ c ∈ s, pathSafeChar c = true) ∧
      singleDotSeg s = false ∧ doubleDotSeg s = false) :
    parseChars ("https://login.microsoftonline.com/".data ++ id ++ '/' :: tail) =
      some { scheme := "https".data, host := "login.microsoftonline.com".data,
             path := id :: splitSegs tail, query := none, fragment := none } := by
  have hC0pre : ∀ c ∈ "https://login.microsoftonline.com/".data,
      isC0Space c = false := by decide
  have hNlpre : ∀ c ∈ "https://login.microsoftonline.com/".data,
      isTabNl c = false := by decide
  have h0 : ∀ c ∈ "https://login.microsoftonline.com/".data ++ id ++ '/' :: tail,
      isC0Space c = false := by
    intro c hc
    rcases List.mem_append.mp hc with h | h
    · rcases List.mem_append.mp h with h | h
      · exact hC0pre c h
      · exact pathSafe_not_c0Space c (hid c h)
    · rcases List.mem_cons.mp h with rfl | h
      · decide
      · rcases htail c h with hs | rfl
        · exact pathSafe_not_c0Space c hs
        · decide
  have hNl : ∀ c ∈ "https://login.microsoftonline.com/".data ++ id ++ '/' :: tail,
      isTabNl c = false := by
    intro c hc
    rcases List.mem_append.mp hc with h | h
    · rcases List.mem_append.mp h with h | h
      · exact hNlpre c h
      · exact pathSafe_not_tabNl c (hid c h)
    · rcases List.mem_cons.mp h with rfl | h
      · decide
      · rcases htail c h with hs | rfl
        · exact pathSafe_not_tabNl c hs
        · decide
  have hstrip : stripPre "https://".data
      (preprocess ("https://login.microsoftonline.com/".data ++ id ++ '/' :: tail)) =
      some ("login.microsoftonline.com/".data ++ (id ++ '/' :: tail)) := by
    rw [preprocess_clean _ h0 hNl,
      show "https://login.microsoftonline.com/".data =
        "https://".data ++ "login.microsoftonline.com/".data by decide,
      List.append_assoc]
    exact stripPre_append _ _
  have htake : ("login.microsoftonline.com/".data ++ (id ++ '/' :: tail)).takeWhile
      (fun c => !hostEndChar c) = "login.microsoftonline.com".data := by
    rw [takeWhile_stop _ _ _ (by decide)]
    decide
  have hdrop : ("login.microsoftonline.com/".data ++ (id ++ '/' :: tail)).dropWhile
      (fun c => !hostEndChar c) = '/' :: (id ++ '/' :: tail) := by
    rw [dropWhile_stop _ _ _ (by decide),
      show "login.microsoftonline.com/".data.dropWhile (fun c => !hostEndChar c) =
        ['/'] by decide]
    rfl
  have hnohash : ∀ c ∈ '/' :: (id ++ '/' :: tail), (c == '#') = false := by
    intro c hc
    rcases List.mem_cons.mp hc with rfl | h
    · decide
    · rcases List.mem_append.mp h with h | h
      · exact pathSafe_ne_hash c (hid c h)
      · rcases List.mem_cons.mp h with rfl | h
        · decide
        · rcases htail c h with hs | rfl
          · exact pathSafe_ne_hash c hs
          · decide
  have hnoquest : ∀ c ∈ '/' :: (id ++ '/' :: tail), (c == '?') = false := by
    intro c hc
    rcases List.mem_cons.mp hc with rfl | h
    · decide
    · rcases List.mem_append.mp h with h | h
      · exact pathSafe_ne_quest c (hid c h)
      · rcases List.mem_cons.mp h with rfl | h
        · decide
        · rcases htail c h with hs | rfl
          · exact pathSafe_ne_quest c hs
          · decide
  have hsegsM : splitSegs (id ++ '/' :: tail) = id :: splitSegs tail :=
    splitSegs_append_sep id '/' tail
      (fun c hc => pathSafe_not_sep c (hid c hc)) (by decide)
  have hplain : ∀ s ∈ id :: splitSegs tail,
      singleDotSeg s = false ∧ doubleDotSeg s = false := by
    intro s hs
    rcases List.mem_cons.mp hs with rfl | hs
    · exact safe_not_dot s hid h1 h2
    · exact (hsegs s hs).2
  have hpath : pathOf ('/' :: (id ++ '/' :: tail)) = id :: splitSegs tail := by
    simp only [pathOf, hsegsM, processSegs_plain _ _ hplain, List.nil_append]
    refine map_eq_self_of _ _ ?_
    intro s hs
    rcases List.mem_cons.mp hs with rfl | hs
    · exact encodeSeg_safe s hid
    · exact encodeSeg_safe s (hsegs s hs).1
  simp only [parseChars, hstrip, htake, hdrop,
    splitAtChar_none '#' _ hnohash, splitAtChar_none '?' _ hnoquest, hpath,
    show "login.microsoftonline.com".data.isEmpty = false by decide,
    show "login.microsoftonline.com".data.any forbiddenHostChar = false by decide,
    show "login.microsoftonline.com".data.map asciiLower =
      "login.microsoftonline.com".data by decide]
  rfl

/-- A string append is the `String.mk` of the appended data. -/
theorem mk_data_append (a b : String) :
    a ++ b = String.mk (a.data ++ b.data) :=
  String.ext (String.data_append a b)

/-- Serialization glue for the authorize template: the serialized pieces
re-associate to prefix, identifier, suffix. -/
theorem concat_auth (w : List Char) :
    "https".data ++ "://".data ++ "login.microsoftonline.com".data ++
      (('/' :: w) ++ (('/' :: "oauth2".data) ++ (('/' :: "v2.0".data) ++
        (('/' :: "authorize".data) ++ [])))) ++ [] ++ [] =
    "https://login.microsoftonline.com/".data ++ w ++
      "/oauth2/v2.0/authorize".data := by
  rw [show "https://login.microsoftonline.com/".data =
        "https".data ++ ("://".data ++
          ("login.microsoftonline.com".data ++ ['/'])) by decide,
      show "/oauth2/v2.0/authorize".data =
        '/' :: ("oauth2".data ++ ('/' :: ("v2.0".data ++
          ('/' :: "authorize".data)))) by decide]
  simp [List.append_assoc]

/-- Serialization glue for the token template. -/
theorem concat_token (w : List Char) :
    "https".data ++ "://".data ++ "login.microsoftonline.com".data ++
      (('/' :: w) ++ (('/' :: "oauth2".data) ++ (('/' :: "v2.0".data) ++
        (('/' :: "token".data) ++ [])))) ++ [] ++ [] =
    "https://login.microsoftonline.com/".data ++ w ++
      "/oauth2/v2.0/token".data := by
  rw [show "https://login.microsoftonline.com/".data =
        "https".data ++ ("://".data ++
          ("login.microsoftonline.com".data ++ ['/'])) by decide,
      show "/oauth2/v2.0/token".data =
        '/' :: ("oauth2".data ++ ('/' :: ("v2.0".data ++
          ('/' :: "token".data)))) by decide]
  simp [List.append_assoc]

/-- Every list is a leading subsequence of itself. -/
theorem listHasPre_refl : ∀ l : List Char, listHasPre l l = true
  | [] => rfl
  | c :: cs => by simp [listHasPre, listHasPre_refl cs]

/-- A list is a leading subsequence of itself followed by anything. -/
theorem listHasPre_append : ∀ l b : List Char, listHasPre l (l ++ b) = true
  | [], _ => rfl
  | c :: cs, b => by simp [listHasPre, listHasPre_append cs b]

/-- A leading subsequence is a contiguous subsequence. -/
theorem listHasSub_of_pre : ∀ sub l : List Char,
    listHasPre sub l = true → listHasSub sub l = true
  | sub, [], h => by
    cases sub with
    | nil => rfl
    | cons c cs => simp [listHasPre] at h
  | sub, c :: cs, h => by simp [listHasSub, h]

/-- Occurrence is preserved by prepending. -/
theorem listHasSub_append_left : ∀ (a sub l : List Char),
    listHasSub sub l = true → listHasSub sub (a ++ l) = true
  | [], _, _, h => h
  | c :: cs, sub, l, h => by
    simp [listHasSub, listHasSub_append_left cs sub l h]

/-! ## Helper lemmas about the lazy cell -/

/-- From an initialized cell, every dereference returns the cached value. -/
theorem accessList_cached (s : String) (v : Option Url) :
    ∀ n, accessList s n ⟨some v⟩ = List.replicate n v
  | 0 => rfl
  | n + 1 => by
    simp [accessList, forceLazy, List.replicate, accessList_cached s v n]

/-- An initialized cell never changes again. -/
theorem accessState_cached (s : String) (v : Option Url) :
    ∀ n, accessState s n ⟨some v⟩ = ⟨some v⟩
  | 0 => rfl
  | n + 1 => by
    simp [accessState, forceLazy, accessState_cached s v n]

/-- From a fresh cell, every dereference returns the parse of the literal. -/
theorem accessList_fresh (s : String) :
    ∀ n, accessList s n LazyUrl.fresh = List.replicate n (Url.parse s)
  | 0 => rfl
  | n + 1 => by
    simp [accessList, forceLazy, LazyUrl.fresh, List.replicate,
      accessList_cached s (Url.parse s) n]

/-- After the first dereference the cell is initialized and stable. -/
theorem accessState_fresh_succ (s : String) (n : Nat) :
    accessState s (n + 1) LazyUrl.fresh = ⟨some (Url.parse s)⟩ := by
  simp [accessState, forceLazy, LazyUrl.fresh,
    accessState_cached s (Url.parse s) n]

/-! ## Helper lemmas for arbitrary identifiers -/

/-- Preprocessing a template instance only filters tab/newline out of the
middle part: the concrete ends are never trimmed, whatever the middle is. -/
theorem preprocess_template (mid tail : List Char)
    (h1 : tail.reverse.all isC0Space = false)
    (h2 : tail.reverse.dropWhile isC0Space = tail.reverse)
    (h3 : tail.filter (fun c => !isTabNl c) = tail) :
    preprocess ("https://login.microsoftonline.com/".data ++ mid ++ tail) =
      "https://login.microsoftonline.com/".data ++
        mid.filter (fun c => !isTabNl c) ++ tail := by
  have hA : ("https://login.microsoftonline.com/".data ++ mid ++ tail).dropWhile
      isC0Space = "https://login.microsoftonline.com/".data ++ mid ++ tail := by
    rw [List.append_assoc, dropWhile_stop _ _ _ (by decide),
      show "https://login.microsoftonline.com/".data.dropWhile isC0Space =
        "https://login.microsoftonline.com/".data by decide]
  have hrev : ("https://login.microsoftonline.com/".data ++ mid ++ tail).reverse =
      tail.reverse ++ (mid.reverse ++
        "https://login.microsoftonline.com/".data.reverse) := by
    simp [List.reverse_append]
  have hB : ("https://login.microsoftonline.com/".data ++ mid ++
      tail).reverse.dropWhile isC0Space =
      ("https://login.microsoftonline.com/".data ++ mid ++ tail).reverse := by
    rw [hrev, dropWhile_stop _ _ _ h1, h2]
  rw [preprocess, trimEnds, hA, hB, List.reverse_reverse,
    List.filter_append, List.filter_append,
    show "https://login.microsoftonline.com/".data.filter
      (fun c => !isTabNl c) = "https://login.microsoftonline.com/".data
      by decide, h3]

/-- Parsing a template instance succeeds for every middle part: the host
section is fixed before the identifier and special-URL path parsing is
total. -/
theorem parse_isSome_template (mid tail : List Char)
    (h1 : tail.reverse.all isC0Space = false)
    (h2 : tail.reverse.dropWhile isC0Space = tail.reverse)
    (h3 : tail.filter (fun c => !isTabNl c) = tail) :
    (parseChars ("https://login.microsoftonline.com/".data ++ mid ++
      tail)).isSome = true := by
  have hstrip : stripPre "https://".data
      (preprocess ("https://login.microsoftonline.com/".data ++ mid ++ tail)) =
      some ("login.microsoftonline.com/".data ++
        (mid.filter (fun c => !isTabNl c) ++ tail)) := by
    rw [preprocess_template mid tail h1 h2 h3,
      show "https://login.microsoftonline.com/".data =
        "https://".data ++ "login.microsoftonline.com/".data by decide,
      List.append_assoc, List.append_assoc]
    exact stripPre_append _ _
  have ht : ("login.microsoftonline.com/".data ++
      (mid.filter (fun c => !isTabNl c) ++ tail)).takeWhile
      (fun c => !hostEndChar c) = "login.microsoftonline.com".data := by
    rw [takeWhile_stop _ _ _ (by decide)]
    decide
  have hd : ("login.microsoftonline.com/".data ++
      (mid.filter (fun c => !isTabNl c) ++ tail)).dropWhile
      (fun c => !hostEndChar c) =
      ['/'] ++ (mid.filter (fun c => !isTabNl c) ++ tail) := by
    rw [dropWhile_stop _ _ _ (by decide),
      show "login.microsoftonline.com/".data.dropWhile
        (fun c => !hostEndChar c) = ['/'] by decide]
  simp only [parseChars, hstrip, ht, hd,
    show ("login.microsoftonline.com".data).isEmpty = false by decide,
    show ("login.microsoftonline.com".data).any forbiddenHostChar = false
      by decide]
  rfl

/-- Parsing a template instance is invariant under pre-filtering tab and
newline characters out of the middle part. -/
theorem parseChars_filter_invariant (mid tail : List Char)
    (h1 : tail.reverse.all isC0Space = false)
    (h2 : tail.reverse.dropWhile isC0Space = tail.reverse)
    (h3 : tail.filter (fun c => !isTabNl c) = tail) :
    parseChars ("https://login.microsoftonline.com/".data ++ mid ++ tail) =
      parseChars ("https://login.microsoftonline.com/".data ++
        mid.filter (fun c => !isTabNl c) ++ tail) := by
  have e1 := preprocess_template mid tail h1 h2 h3
  have e2 := preprocess_template (mid.filter (fun c => !isTabNl c)) tail h1 h2 h3
  rw [filter_all_true _ _ (fun c hc => (List.mem_filter.mp hc).2)] at e2
  simp only [parseChars, e1, e2]

/-- `AzureTenant::new` never fails: for every identifier string both
template URLs parse. -/
theorem new_always_succeeds (id : String) :
    (AzureTenant.new id).isSome = true := by
  have ha : (Url.parse ("https://login.microsoftonline.com/" ++ id ++
      "/oauth2/v2.0/authorize")).isSome = true := by
    rw [Url.parse, String.data_append, String.data_append]
    exact parse_isSome_template id.data "/oauth2/v2.0/authorize".data
      (by decide) (by decide) (by decide)
  have hb : (Url.parse ("https://login.microsoftonline.com/" ++ id ++
      "/oauth2/v2.0/token")).isSome = true := by
    rw [Url.parse, String.data_append, String.data_append]
    exact parse_isSome_template id.data "/oauth2/v2.0/token".data
      (by decide) (by decide) (by decide)
  rcases Option.isSome_iff_exists.mp ha with ⟨a, hae⟩
  rcases Option.isSome_iff_exists.mp hb with ⟨b, hbe⟩
  simp [AzureTenant.new, hae, hbe]

/-- `AzureTenant::new` treats an identifier exactly like the identifier
with all ASCII tab and newline characters removed. -/
theorem new_strips_tab_newline (id : String) :
    AzureTenant.new id =
      AzureTenant.new (String.mk (id.data.filter (fun c => !isTabNl c))) := by
  have e1 : Url.parse ("https://login.microsoftonline.com/" ++ id ++
      "/oauth2/v2.0/authorize") =
      Url.parse ("https://login.microsoftonline.com/" ++
        String.mk (id.data.filter (fun c => !isTabNl c)) ++
        "/oauth2/v2.0/authorize") := by
    simp only [Url.parse, String.data_append]
    exact parseChars_filter_invariant id.data "/oauth2/v2.0/authorize".data
      (by decide) (by decide) (by decide)
  have e2 : Url.parse ("https://login.microsoftonline.com/" ++ id ++
      "/oauth2/v2.0/token") =
      Url.parse ("https://login.microsoftonline.com/" ++
        String.mk (id.data.filter (fun c => !isTabNl c)) ++
        "/oauth2/v2.0/token") := by
    simp only [Url.parse, String.data_append]
    exact parseChars_filter_invariant id.data "/oauth2/v2.0/token".data
      (by decide) (by decide) (by decide)
  simp only [AzureTenant.new, e1, e2]

/-! ## Claim theorems on concrete inputs -/

/-- C1: for each fixed variant, `auth_uri()` and `token_uri()` return, on
every invocation, exactly the literal URL of the spec's table,
byte-for-byte (the serialized URL equals the literal string). -/
theorem c1_fixed_endpoints_literal :
    (∀ a : AzureCommon, (AzureCommon.auth_uri a).map Url.as_str =
      some "https://login.microsoftonline.com/common/oauth2/v2.0/authorize" ∧
      (AzureCommon.token_uri a).map Url.as_str =
      some "https://login.microsoftonline.com/common/oauth2/v2.0/token") ∧
    (∀ a : AzureOrganization, (AzureOrganization.auth_uri a).map Url.as_str =
      some "https://login.microsoftonline.com/organizations/oauth2/v2.0/authorize" ∧
      (AzureOrganization.token_uri a).map Url.as_str =
      some "https://login.microsoftonline.com/organizations/oauth2/v2.0/token") ∧
    (∀ a : AzureConsumer, (AzureConsumer.auth_uri a).map Url.as_str =
      some "https://login.microsoftonline.com/consumers/oauth2/v2.0/authorize" ∧
      (AzureConsumer.token_uri a).map Url.as_str =
      some "https://login.microsoftonline.com/consumers/oauth2/v2.0/token") :=
  ⟨fun _ => ⟨rfl, rfl⟩, fun _ => ⟨rfl, rfl⟩, fun _ => ⟨rfl, rfl⟩⟩

/-- C2: `AzureTenant::new` substitutes the identifier verbatim into the two
templates: the GUID example yields the expected authorization endpoint and
the domain example yields the expected token endpoint. -/
theorem c2_tenant_substitution_examples :
    (AzureTenant.new "8eaef023-2b34-4da1-9baa-8bc8c9d6a490").map
      (fun t => Url.as_str t.auth_uri) =
    some "https://login.microsoftonline.com/8eaef023-2b34-4da1-9baa-8bc8c9d6a490/oauth2/v2.0/authorize" ∧
    (AzureTenant.new "contoso.onmicrosoft.com").map
      (fun t => Url.as_str t.token_uri) =
    some "https://login.microsoftonline.com/contoso.onmicrosoft.com/oauth2/v2.0/token" :=
  ⟨rfl, rfl⟩

/-- C3 counterexample: the claim says `AzureTenant::new(" bad id\n")` fails
and returns no usable configuration; in fact the URL parser accepts the
substituted string, so construction succeeds. -/
theorem c3_counterexample_whitespace_id_succeeds :
    (AzureTenant.new " bad id\n").isSome = true :=
  rfl

/-- C3 amended: `AzureTenant::new(" bad id\n")` does not fail: the parser
strips the newline and percent-encodes the spaces, so construction returns a
configuration whose authorization endpoint is
`https://login.microsoftonline.com/%20bad%20id/oauth2/v2.0/authorize`. -/
theorem c3_amended_whitespace_id_parses :
    (AzureTenant.new " bad id\n").map (fun t => Url.as_str t.auth_uri) =
      some "https://login.microsoftonline.com/%20bad%20id/oauth2/v2.0/authorize" :=
  rfl

/-- C4: the six literal endpoint strings all parse, so the failure branch of
each construction-time `unwrap` is unreachable and the fixed variants'
accessors always return a value. -/
theorem c4_fixed_construction_never_fails :
    COMMON_AUTH_URL.isSome = true ∧ COMMON_TOKEN_URL.isSome = true ∧
    ORGANIZATIONS_AUTH_URL.isSome = true ∧
    ORGANIZATIONS_TOKEN_URL.isSome = true ∧
    CONSUMERS_AUTH_URL.isSome = true ∧ CONSUMERS_TOKEN_URL.isSome = true ∧
    (∀ a : AzureCommon, (AzureCommon.auth_uri a).isSome = true ∧
      (AzureCommon.token_uri a).isSome = true) ∧
    (∀ a : AzureOrganization, (AzureOrganization.auth_uri a).isSome = true ∧
      (AzureOrganization.token_uri a).isSome = true) ∧
    (∀ a : AzureConsumer, (AzureConsumer.auth_uri a).isSome = true ∧
      (AzureConsumer.token_uri a).isSome = true) :=
  ⟨rfl, rfl, rfl, rfl, rfl, rfl,
   fun _ => ⟨rfl, rfl⟩, fun _ => ⟨rfl, rfl⟩, fun _ => ⟨rfl, rfl⟩⟩

/-- C7: `AzureTenant::new("")` has the deterministic outcome of succeeding:
the two adjacent slashes are kept per URL semantics and the authorization
endpoint still ends in `/oauth2/v2.0/authorize`. -/
theorem c7_empty_identifier_deterministic :
    (AzureTenant.new "").isSome = true ∧
    (AzureTenant.new "").map (fun t => Url.as_str t.auth_uri) =
      some "https://login.microsoftonline.com//oauth2/v2.0/authorize" ∧
    (AzureTenant.new "").map
      (fun t => strEndsWith (Url.as_str t.auth_uri) "/oauth2/v2.0/authorize") =
      some true :=
  ⟨rfl, rfl, rfl⟩

/-- C10: `AzureTenant::new` never rejects an identifier with an error
value — in particular none containing ASCII whitespace: for every identifier
construction succeeds, an identifier is treated exactly like itself with all
ASCII tab/newline characters stripped, and on the example `" bad id\n"` the
newline is stripped and the spaces are percent-encoded, giving the first
authorization path segment `%20bad%20id` instead of a failure. -/
theorem c10_whitespace_id_percent_encoded :
    (∀ id : String, (AzureTenant.new id).isSome = true) ∧
    (∀ id : String, AzureTenant.new id =
      AzureTenant.new (String.mk (id.data.filter (fun c => !isTabNl c)))) ∧
    (AzureTenant.new " bad id\n").map (fun t => Url.as_str t.auth_uri) =
      some "https://login.microsoftonline.com/%20bad%20id/oauth2/v2.0/authorize" ∧
    (AzureTenant.new " bad id\n").map
      (fun t => t.auth_uri.path.head?.map String.mk) =
      some (some "%20bad%20id") :=
  ⟨new_always_succeeds, new_strips_tab_newline, rfl, rfl⟩

/-- C6 counterexample: `"a b"` contains no URL-reserved character, and
`AzureTenant::new("a b")` succeeds, but the space is percent-encoded, so
neither the serialized URL nor the path contains `"a b"` verbatim. -/
theorem c6_counterexample_space_not_verbatim :
    "a b".data.all (fun c => !reservedChar c) = true ∧
    (AzureTenant.new "a b").isSome = true ∧
    (AzureTenant.new "a b").map
      (fun t => strContains (Url.as_str t.auth_uri)
        "login.microsoftonline.com/a b/oauth2/v2.0/authorize") =
      some false ∧
    (AzureTenant.new "a b").map
      (fun t => strContains (Url.path_str t.auth_uri) "a b") =
      some false :=
  ⟨rfl, rfl, rfl, rfl⟩

/-- C5: on every constructed configuration the endpoint accessors are total
pure functions: on the fixed variants they always return a value and leave
the receiver unchanged, and on `AzureTenant` they return exactly the stored
field and leave the receiver unchanged. -/
theorem c5_accessors_total_pure :
    (∀ a : AzureCommon, (AzureCommon.auth_uriCall a).1.isSome = true ∧
      (AzureCommon.auth_uriCall a).2 = a ∧
      (AzureCommon.token_uriCall a).1.isSome = true ∧
      (AzureCommon.token_uriCall a).2 = a) ∧
    (∀ a : AzureOrganization, (AzureOrganization.auth_uriCall a).1.isSome = true ∧
      (AzureOrganization.auth_uriCall a).2 = a ∧
      (AzureOrganization.token_uriCall a).1.isSome = true ∧
      (AzureOrganization.token_uriCall a).2 = a) ∧
    (∀ a : AzureConsumer, (AzureConsumer.auth_uriCall a).1.isSome = true ∧
      (AzureConsumer.auth_uriCall a).2 = a ∧
      (AzureConsumer.token_uriCall a).1.isSome = true ∧
      (AzureConsumer.token_uriCall a).2 = a) ∧
    (∀ t : AzureTenant, (AzureTenant.auth_uriCall t).1 = t.auth_uri ∧
      (AzureTenant.auth_uriCall t).2 = t ∧
      (AzureTenant.token_uriCall t).1 = t.token_uri ∧
      (AzureTenant.token_uriCall t).2 = t) :=
  ⟨fun _ => ⟨rfl, rfl, rfl, rfl⟩, fun _ => ⟨rfl, rfl, rfl, rfl⟩,
   fun _ => ⟨rfl, rfl, rfl, rfl⟩, fun _ => ⟨rfl, rfl, rfl, rfl⟩⟩

/-- C8: repeated dereference of each fixed variant's lazy endpoint cell is
idempotent: starting from the fresh cell, all of any number of accesses
return the same value (the accessor's value), and the cell state after any
positive number of accesses equals the state after the first access. -/
theorem c8_fixed_access_idempotent : ∀ n : Nat,
    (accessList "https://login.microsoftonline.com/common/oauth2/v2.0/authorize"
        n LazyUrl.fresh = List.replicate n (AzureCommon.auth_uri ⟨⟩) ∧
      accessState "https://login.microsoftonline.com/common/oauth2/v2.0/authorize"
        (n + 1) LazyUrl.fresh =
      accessState "https://login.microsoftonline.com/common/oauth2/v2.0/authorize"
        1 LazyUrl.fresh) ∧
    (accessList "https://login.microsoftonline.com/common/oauth2/v2.0/token"
        n LazyUrl.fresh = List.replicate n (AzureCommon.token_uri ⟨⟩) ∧
      accessState "https://login.microsoftonline.com/common/oauth2/v2.0/token"
        (n + 1) LazyUrl.fresh =
      accessState "https://login.microsoftonline.com/common/oauth2/v2.0/token"
        1 LazyUrl.fresh) ∧
    (accessList "https://login.microsoftonline.com/organizations/oauth2/v2.0/authorize"
        n LazyUrl.fresh = List.replicate n (AzureOrganization.auth_uri ⟨⟩) ∧
      accessState "https://login.microsoftonline.com/organizations/oauth2/v2.0/authorize"
        (n + 1) LazyUrl.fresh =
      accessState "https://login.microsoftonline.com/organizations/oauth2/v2.0/authorize"
        1 LazyUrl.fresh) ∧
    (accessList "https://login.microsoftonline.com/organizations/oauth2/v2.0/token"
        n LazyUrl.fresh = List.replicate n (AzureOrganization.token_uri ⟨⟩) ∧
      accessState "https://login.microsoftonline.com/organizations/oauth2/v2.0/token"
        (n + 1) LazyUrl.fresh =
      accessState "https://login.microsoftonline.com/organizations/oauth2/v2.0/token"
        1 LazyUrl.fresh) ∧
    (accessList "https://login.microsoftonline.com/consumers/oauth2/v2.0/authorize"
        n LazyUrl.fresh = List.replicate n (AzureConsumer.auth_uri ⟨⟩) ∧
      accessState "https://login.microsoftonline.com/consumers/oauth2/v2.0/authorize"
        (n + 1) LazyUrl.fresh =
      accessState "https://login.microsoftonline.com/consumers/oauth2/v2.0/authorize"
        1 LazyUrl.fresh) ∧
    (accessList "https://login.microsoftonline.com/consumers/oauth2/v2.0/token"
        n LazyUrl.fresh = List.replicate n (AzureConsumer.token_uri ⟨⟩) ∧
      accessState "https://login.microsoftonline.com/consumers/oauth2/v2.0/token"
        (n + 1) LazyUrl.fresh =
      accessState "https://login.microsoftonline.com/consumers/oauth2/v2.0/token"
        1 LazyUrl.fresh) := by
  intro n
  refine ⟨⟨?_, ?_⟩, ⟨?_, ?_⟩, ⟨?_, ?_⟩, ⟨?_, ?_⟩, ⟨?_, ?_⟩, ⟨?_, ?_⟩⟩ <;>
    first
      | exact accessList_fresh _ n
      | rw [accessState_fresh_succ, accessState_fresh_succ]

/-- C9: `AzureTenant::new` is deterministic: two calls on the same
identifier yield configurations that are equal, compare equal under the
derived `PartialEq`, and agree on both endpoint fields. -/
theorem c9_new_deterministic (id : String)
    (h h2 : (AzureTenant.new id).isSome) :
    (AzureTenant.new id).get h = (AzureTenant.new id).get h2 ∧
    AzureTenant.beq ((AzureTenant.new id).get h)
      ((AzureTenant.new id).get h2) = true ∧
    ((AzureTenant.new id).get h).auth_uri =
      ((AzureTenant.new id).get h2).auth_uri ∧
    ((AzureTenant.new id).get h).token_uri =
      ((AzureTenant.new id).get h2).token_uri :=
  ⟨rfl, by simp [AzureTenant.beq], rfl, rfl⟩

/-- C6 amended: for every identifier of ASCII alphanumerics, `-`, `.`, `_`,
`~` (other than the dot segments `.` and `..`), `AzureTenant::new(id)`
succeeds, both endpoints are the templates with `id` substituted verbatim,
and the serialized authorization URL contains `id` between
`login.microsoftonline.com/` and `/oauth2/v2.0/authorize`. -/
theorem c6_amended_pathsafe_id (id : String)
    (hid : ∀ c ∈ id.data, pathSafeChar c = true)
    (h1 : id ≠ ".") (h2 : id ≠ "..") :
    (AzureTenant.new id).isSome = true ∧
    (AzureTenant.new id).map (fun t => Url.as_str t.auth_uri) =
      some ("https://login.microsoftonline.com/" ++ id ++
        "/oauth2/v2.0/authorize") ∧
    (AzureTenant.new id).map (fun t => Url.as_str t.token_uri) =
      some ("https://login.microsoftonline.com/" ++ id ++
        "/oauth2/v2.0/token") ∧
    (AzureTenant.new id).map (fun t => strContains (Url.as_str t.auth_uri)
      ("login.microsoftonline.com/" ++ id ++ "/oauth2/v2.0/authorize")) =
      some true := by
  have h1d : id.data ≠ ['.'] :=
    fun e => h1 (String.ext (e.trans (by decide)))
  have h2d : id.data ≠ ['.', '.'] :=
    fun e => h2 (String.ext (e.trans (by decide)))
  have hp1 := parse_template id.data "oauth2/v2.0/authorize".data hid h1d h2d
    (by decide) (by decide)
  have hp2 := parse_template id.data "oauth2/v2.0/token".data hid h1d h2d
    (by decide) (by decide)
  have hdata1 : ("https://login.microsoftonline.com/" ++ id ++
      "/oauth2/v2.0/authorize").data =
      "https://login.microsoftonline.com/".data ++ id.data ++
        '/' :: "oauth2/v2.0/authorize".data := by
    rw [String.data_append, String.data_append]
  have hdata2 : ("https://login.microsoftonline.com/" ++ id ++
      "/oauth2/v2.0/token").data =
      "https://login.microsoftonline.com/".data ++ id.data ++
        '/' :: "oauth2/v2.0/token".data := by
    rw [String.data_append, String.data_append]
  have hparse1 : Url.parse ("https://login.microsoftonline.com/" ++ id ++
      "/oauth2/v2.0/authorize") =
      some { scheme := "https".data, host := "login.microsoftonline.com".data,
             path := id.data ::
               ["oauth2".data, "v2.0".data, "authorize".data],
             query := none, fragment := none } := by
    rw [Url.parse, hdata1, hp1,
      show splitSegs "oauth2/v2.0/authorize".data =
        ["oauth2".data, "v2.0".data, "authorize".data] by decide]
  have hparse2 : Url.parse ("https://login.microsoftonline.com/" ++ id ++
      "/oauth2/v2.0/token") =
      some { scheme := "https".data, host := "login.microsoftonline.com".data,
             path := id.data :: ["oauth2".data, "v2.0".data, "token".data],
             query := none, fragment := none } := by
    rw [Url.parse, hdata2, hp2,
      show splitSegs "oauth2/v2.0/token".data =
        ["oauth2".data, "v2.0".data, "token".data] by decide]
  have hnew : AzureTenant.new id = some
      ⟨{ scheme := "https".data, host := "login.microsoftonline.com".data,
         path := id.data :: ["oauth2".data, "v2.0".data, "authorize".data],
         query := none, fragment := none },
       { scheme := "https".data, host := "login.microsoftonline.com".data,
         path := id.data :: ["oauth2".data, "v2.0".data, "token".data],
         query := none, fragment := none }⟩ := by
    simp only [AzureTenant.new, hparse1, hparse2]
  have hauth : Url.as_str
      { scheme := "https".data, host := "login.microsoftonline.com".data,
        path := id.data :: ["oauth2".data, "v2.0".data, "authorize".data],
        query := none, fragment := none } =
      "https://login.microsoftonline.com/" ++ id ++
        "/oauth2/v2.0/authorize" := by
    rw [show ("https://login.microsoftonline.com/" ++ id ++
        "/oauth2/v2.0/authorize") =
      String.mk ("https://login.microsoftonline.com/".data ++ id.data ++
        "/oauth2/v2.0/authorize".data) from
      String.ext (by rw [String.data_append, String.data_append])]
    exact congrArg String.mk (concat_auth id.data)
  have htok : Url.as_str
      { scheme := "https".data, host := "login.microsoftonline.com".data,
        path := id.data :: ["oauth2".data, "v2.0".data, "token".data],
        query := none, fragment := none } =
      "https://login.microsoftonline.com/" ++ id ++
        "/oauth2/v2.0/token" := by
    rw [show ("https://login.microsoftonline.com/" ++ id ++
        "/oauth2/v2.0/token") =
      String.mk ("https://login.microsoftonline.com/".data ++ id.data ++
        "/oauth2/v2.0/token".data) from
      String.ext (by rw [String.data_append, String.data_append])]
    exact congrArg String.mk (concat_token id.data)
  refine ⟨by rw [hnew]; rfl, ?_, ?_, ?_⟩
  · rw [hnew]
    exact congrArg some hauth
  · rw [hnew]
    exact congrArg some htok
  · simp only [hnew, Option.map_some']
    refine congrArg some ?_
    rw [hauth]
    simp only [strContains]
    have hm : ("login.microsoftonline.com/" ++ id ++
        "/oauth2/v2.0/authorize").data =
        "login.microsoftonline.com/".data ++ id.data ++
          "/oauth2/v2.0/authorize".data := by
      rw [String.data_append, String.data_append]
    have hs : ("https://login.microsoftonline.com/" ++ id ++
        "/oauth2/v2.0/authorize").data =
        "https://".data ++ ("login.microsoftonline.com/".data ++ id.data ++
          "/oauth2/v2.0/authorize".data) := by
      rw [String.data_append, String.data_append,
        show "https://login.microsoftonline.com/".data =
          "https://".data ++ "login.microsoftonline.com/".data by decide]
      simp [List.append_assoc]
    rw [hm, hs]
    exact listHasSub_append_left _ _ _
      (listHasSub_of_pre _ _ (listHasPre_refl _))

/-- Witness for C6 amended at the GUID identifier from the spec. -/
theorem c6_amended_pathsafe_id_witness :
    (AzureTenant.new "8eaef023-2b34-4da1-9baa-8bc8c9d6a490").isSome = true ∧
    (AzureTenant.new "8eaef023-2b34-4da1-9baa-8bc8c9d6a490").map
      (fun t => Url.as_str t.auth_uri) =
      some ("https://login.microsoftonline.com/" ++
        "8eaef023-2b34-4da1-9baa-8bc8c9d6a490" ++
        "/oauth2/v2.0/authorize") ∧
    (AzureTenant.new "8eaef023-2b34-4da1-9baa-8bc8c9d6a490").map
      (fun t => Url.as_str t.token_uri) =
      some ("https://login.microsoftonline.com/" ++
        "8eaef023-2b34-4da1-9baa-8bc8c9d6a490" ++ "/oauth2/v2.0/token") ∧
    (AzureTenant.new "8eaef023-2b34-4da1-9baa-8bc8c9d6a490").map
      (fun t => strContains (Url.as_str t.auth_uri)
        ("login.microsoftonline.com/" ++
          "8eaef023-2b34-4da1-9baa-8bc8c9d6a490" ++
          "/oauth2/v2.0/authorize")) = some true :=
  c6_amended_pathsafe_id "8eaef023-2b34-4da1-9baa-8bc8c9d6a490"
    (by decide) (by decide) (by decide)

/-- Witness for C9 at the identifier `contoso.onmicrosoft.com`. -/
theorem c9_new_deterministic_witness :
    (AzureTenant.new "contoso.onmicrosoft.com").get (by decide) =
      (AzureTenant.new "contoso.onmicrosoft.com").get (by decide) ∧
    AzureTenant.beq ((AzureTenant.new "contoso.onmicrosoft.com").get (by decide))
      ((AzureTenant.new "contoso.onmicrosoft.com").get (by decide)) = true ∧
    ((AzureTenant.new "contoso.onmicrosoft.com").get (by decide)).auth_uri =
      ((AzureTenant.new "contoso.onmicrosoft.com").get (by decide)).auth_uri ∧
    ((AzureTenant.new "contoso.onmicrosoft.com").get (by decide)).token_uri =
      ((AzureTenant.new "contoso.onmicrosoft.com").get (by decide)).token_uri :=
  c9_new_deterministic "contoso.onmicrosoft.com" (by decide) (by decide)

end AzureOAuth2
